import Mathlib

/-!
A verification development for the `ros2graph` introspection module
(`ros2graph/api/__init__.py`): the DOT emission engine (`DotWriter`) and the
node-name normalization helpers (`parse_node_name`, `get_id`,
`sorted_iteritems`).

The Python code is shallowly embedded: attribute values (Python objects) become
the inductive type `PyValue`; the process-global identifier counter `g_id`
becomes an explicit state parameter threaded through `get_id` and
`parse_node_name`; the writer's sink becomes the returned `String` (a call
sequence writes the concatenation of the returned strings, in call order);
`raise` becomes the `Except.error` branch of `Except PyError`.
-/

/-- Errors the embedded code can raise.  `typeError` models the `TypeError`
raised by `DotWriter.id` on an unsupported value type (the specification calls
it `UnsupportedAttributeTypeError`); `malformedName` models the `ValueError`
raised by tuple unpacking when `rsplit` finds no separator (the specification
calls it `MalformedNameError`). -/
inductive PyError where
  | typeError
  | malformedName
deriving DecidableEq

/-- A Python value that may appear as a DOT attribute value or identifier.

* `int` carries a mathematical integer (Python `int` is unbounded);
* `bool` is kept separate because Python `bool` is a subtype of `int`, so
  `isinstance(b, int)` is true for booleans and `str(True) = "True"`;
* `float`: the only thing the writer does with a float is `str(f)`, which is a
  pure function of the IEEE-754 double; the constructor carries that decimal
  rendering directly, abstracting the binary float value itself;
* `str` carries the string;
* `none` is Python `None`;
* `other` stands for any value of a type other than the above. -/
inductive PyValue where
  | int (n : Int)
  | bool (b : Bool)
  | float (dec : String)
  | str (s : String)
  | none
  | other
deriving DecidableEq

deriving instance DecidableEq for Except

/-- Model of Python `s.startswith(pre)` on explicit character lists:
`pre` is a leading subsequence of `s`. -/
def startsWithChars : List Char → List Char → Bool
  | [], _ => true
  | _ :: _, [] => false
  | p :: ps, a :: as => p == a && startsWithChars ps as

/-- Model of Python `s.startswith(pre)`. -/
def pyStartsWith (s pre : String) : Bool :=
  startsWithChars pre.data s.data

/-- Model of Python's per-character alphanumeric test.  Python's
`str.isalnum` is Unicode-aware; the values this program feeds it are ASCII, and
the test is modelled on the ASCII range by `Char.isAlphanum`. -/
def pyIsAlnumChar (c : Char) : Bool :=
  c.isAlphanum

/-- Model of Python `s.isalnum()`: true iff `s` is non-empty and every
character is alphanumeric (the empty string is *not* alphanumeric). -/
def pyIsAlnum (s : String) : Bool :=
  !s.data.isEmpty && s.data.all pyIsAlnumChar

/-- Replace every occurrence of the single character `c` in `l` by the
character sequence `r`; models Python `s.replace(c, r)` for a one-character
pattern (occurrences in `l` are scanned left to right and replacements are not
rescanned, exactly as `flatMap` does). -/
def replaceChar (l : List Char) (c : Char) (r : List Char) : List Char :=
  l.flatMap fun a => if a = c then r else [a]

/-- Embedding of `DotWriter.escape` (api/__init__.py:265-270): four successive
`str.replace` calls — backslash, newline, tab, double-quote, in that order —
then wrap the result in double quotes. -/
def DotWriter.escape (s : String) : String :=
  let s1 := replaceChar s.data '\\' ['\\', '\\']
  let s2 := replaceChar s1 '\n' ['\\', 'n']
  let s3 := replaceChar s2 '\t' ['\\', 't']
  let s4 := replaceChar s3 '\x22' ['\\', '\x22']
  "\"" ++ String.mk s4 ++ "\""

/-- Embedding of `DotWriter.id` (api/__init__.py:238-248).  `isinstance(id, (int, float))`
is true for `int`, `bool` (a subtype of `int`) and `float`, and `str()` of
those is their decimal rendering (`"True"`/`"False"` for booleans); a string
that is alphanumeric and does not start with `"0x"` passes through unquoted;
any other string is escaped and quoted; anything else raises `TypeError`. -/
def DotWriter.id (v : PyValue) : Except PyError String :=
  match v with
  | .int n => .ok (toString n)
  | .bool b => .ok (if b then "True" else "False")
  | .float dec => .ok dec
  | .str s =>
    if pyIsAlnum s && !pyStartsWith s "0x" then .ok s
    else .ok (DotWriter.escape s)
  | .none => .error .typeError
  | .other => .error .typeError

/-- Embedding of `DotWriter.key_value` (api/__init__.py:233-236): `id(key) = id(value)`.
The key always arrives as a Python `str` (a keyword-argument name). -/
def DotWriter.key_value (key : String) (value : PyValue) : Except PyError String := do
  let k ← DotWriter.id (.str key)
  let v ← DotWriter.id value
  .ok (k ++ "=" ++ v)

/-- Python string comparison (`list.sort` on `str` keys): lexicographic on
code points, a proper prefix sorting first. -/
def lexLe : List Char → List Char → Bool
  | [], _ => true
  | _ :: _, [] => false
  | a :: as, b :: bs => if a = b then lexLe as bs else decide (a < b)

/-- The comparison `keys.sort()` uses, lifted to dict entries: compare the
attribute names with Python string order. -/
def keyRel (p q : String × PyValue) : Prop :=
  lexLe p.1.data q.1.data = true

instance : DecidableRel keyRel := fun p q =>
  inferInstanceAs (Decidable (lexLe p.1.data q.1.data = true))

/-- Embedding of `sorted_iteritems` (api/__init__.py:140-146): iterate a dict's entries in
ascending key order (`keys.sort()` then look each key up).  A Python dict has
distinct keys and remembers insertion order, so it is modelled as an
association list with `Nodup` keys; sorting the pairs by key is then the same
as sorting the keys and looking the values up. -/
def sorted_iteritems (l : List (String × PyValue)) : List (String × PyValue) :=
  List.insertionSort keyRel l

/-- The body of the `for name, value in sorted_iteritems(attrs)` loop of
`DotWriter.attr_list` (api/__init__.py:222-230): skip `None` values, separate
emitted entries with `", "` using the `first` flag. -/
def attrListLoop : List (String × PyValue) → Bool → Except PyError String
  | [], _ => .ok ""
  | (name, value) :: rest, first =>
    if value = PyValue.none then attrListLoop rest first
    else do
      let kv ← DotWriter.key_value name value
      let tail ← attrListLoop rest false
      .ok ((if first then "" else ", ") ++ kv ++ tail)

/-- Embedding of `DotWriter.attr_list` (api/__init__.py:218-231): nothing at all for an
empty mapping (`if not attrs: return`), otherwise `' ['`, the loop, `']'`. -/
def DotWriter.attr_list (attrs : List (String × PyValue)) : Except PyError String :=
  if attrs.isEmpty then .ok ""
  else do
    let body ← attrListLoop (sorted_iteritems attrs) true
    .ok (" [" ++ body ++ "]")

/-- The attribute-statement loop shared by `begin_graph` and `begin_subgraph`
(api/__init__.py:174-179): one `"\t" key=value ";\n"` line per non-`None`
entry, in sorted order. -/
def graphAttrLines : List (String × PyValue) → Except PyError String
  | [] => .ok ""
  | (name, value) :: rest =>
    if value = PyValue.none then graphAttrLines rest
    else do
      let kv ← DotWriter.key_value name value
      let tail ← graphAttrLines rest
      .ok ("\t" ++ kv ++ ";\n" ++ tail)

/-- Embedding of `DotWriter.begin_graph` (api/__init__.py:171-179). -/
def DotWriter.begin_graph (attrs : List (String × PyValue)) : Except PyError String := do
  let lines ← graphAttrLines (sorted_iteritems attrs)
  .ok ("digraph \x7b\n" ++ lines)

/-- Embedding of `DotWriter.end_graph` (api/__init__.py:181-182). -/
def DotWriter.end_graph : String := "\x7d\n"

/-- Embedding of `DotWriter.node` (api/__init__.py:204-208): tab, identifier, attribute
list, `";\n"`. -/
def DotWriter.node (node : PyValue) (attrs : List (String × PyValue)) :
    Except PyError String := do
  let n ← DotWriter.id node
  let al ← DotWriter.attr_list attrs
  .ok ("\t" ++ n ++ al ++ ";\n")

/-- Embedding of `DotWriter.edge` (api/__init__.py:210-216). -/
def DotWriter.edge (src dst : PyValue) (attrs : List (String × PyValue)) :
    Except PyError String := do
  let s ← DotWriter.id src
  let d ← DotWriter.id dst
  let al ← DotWriter.attr_list attrs
  .ok ("\t" ++ s ++ " -> " ++ d ++ al ++ ";\n")

/-- Embedding of `DotWriter.attr` (api/__init__.py:198-202): a bare default-attribute
statement `"\t" ++ what ++ attr-list ++ ";\n"`. -/
def DotWriter.attr (what : String) (attrs : List (String × PyValue)) :
    Except PyError String := do
  let al ← DotWriter.attr_list attrs
  .ok ("\t" ++ what ++ al ++ ";\n")

/-- Python `int()` truncation toward zero of a rational.  Python's binary
floats are modelled by exact rationals here (every literal the color helper is
called with in the claims is exactly representable). -/
def pyInt (q : ℚ) : Int :=
  if q < 0 then -Rat.floor (-q) else Rat.floor q

/-- The nested `float2int` of `DotWriter.color` (api/__init__.py:256-261):
clamp to a channel range before scaling. -/
def float2int (f : ℚ) : Int :=
  if f ≤ 0 then 0
  else if 1 ≤ f then 255
  else pyInt (255 * f + 1/2)

/-- One lowercase hexadecimal digit, `n < 16`. -/
def hexDigit (n : Nat) : Char :=
  if n < 10 then Char.ofNat (48 + n) else Char.ofNat (87 + n)

/-- Python `"%02x" % n` for `0 ≤ n ≤ 255` (the only range `color` produces):
exactly two lowercase hex digits. -/
def hex2 (n : Nat) : String :=
  String.mk [hexDigit (n / 16), hexDigit (n % 16)]

/-- Embedding of `DotWriter.color` (api/__init__.py:253-263): `"#"` followed by the three
clamped channels as two hex digits each. -/
def DotWriter.color (r g b : ℚ) : String :=
  "#" ++ hex2 (float2int r).toNat ++ hex2 (float2int g).toNat ++ hex2 (float2int b).toNat

/-- The `NodeName` namedtuple (api/__init__.py:18).  The `namespace` field is
spelled `namespc` because `namespace` is a Lean keyword. -/
structure NodeName where
  name : String
  namespc : String
  full_name : String
  id : String
deriving DecidableEq

/-- Embedding of `get_id` (api/__init__.py:50-56): increment the global counter `g_id` and
append its decimal rendering; the global is threaded as explicit state. -/
def get_id (s : String) (g : Nat) : String × Nat :=
  (s ++ toString (g + 1), g + 1)

/-- Python `full.rsplit(c, 1)` restricted to its successful shape: split at
the *last* occurrence of `c`, returning the part before and the part after;
`Option.none` when `c` does not occur. -/
def rsplitLast (c : Char) : List Char → Option (List Char × List Char)
  | [] => Option.none
  | a :: rest =>
    match rsplitLast c rest with
    | Option.some (pre, post) => Option.some (a :: pre, post)
    | Option.none => if a = c then Option.some ([], rest) else Option.none

/-- Lines 36-38 of `parse_node_name`: the input with a leading `'/'` forced in
front when absent (`if not full_node_name.startswith('/')`). -/
def forcedAbsolute (node_name : String) : String :=
  if pyStartsWith node_name "/" then node_name else "/" ++ node_name

/-- Embedding of `parse_node_name` (api/__init__.py:35-42): force a leading `'/'`, split on
the last `'/'` into namespace and basename, substitute `"/"` for an empty
namespace, and allocate a fresh id with `get_id('node_')`.  The `Option.none`
branch of the split is where Python's two-variable unpacking of
`full.rsplit('/', 1)` would raise (the spec's `MalformedNameError`). -/
def parse_node_name (node_name : String) (g : Nat) : Except PyError (NodeName × Nat) :=
  let full := forcedAbsolute node_name
  match rsplitLast '/' full.data with
  | Option.none => .error .malformedName
  | Option.some (pre, post) =>
    let ns0 := String.mk pre
    let ns := if ns0 = "" then "/" else ns0
    let (idStr, g') := get_id "node_" g
    .ok (⟨String.mk post, ns, full, idStr⟩, g')

lemma rsplitLast_eq_none (c : Char) :
    ∀ l : List Char, rsplitLast c l = Option.none → c ∉ l := by
  intro l
  induction l with
  | nil => intro _ h; cases h
  | cons a rest ih =>
    intro h
    simp only [rsplitLast] at h
    cases hrec : rsplitLast c rest with
    | some p => rw [hrec] at h; cases h
    | none =>
      rw [hrec] at h
      by_cases hac : a = c
      · simp [hac] at h
      · intro hmem
        rcases List.mem_cons.mp hmem with h1 | h2
        · exact hac h1.symm
        · exact (ih hrec) h2

lemma rsplitLast_eq_some (c : Char) :
    ∀ l pre post : List Char, rsplitLast c l = Option.some (pre, post) →
      l = pre ++ c :: post ∧ c ∉ post := by
  intro l
  induction l with
  | nil => intro pre post h; cases h
  | cons a rest ih =>
    intro pre post h
    simp only [rsplitLast] at h
    cases hrec : rsplitLast c rest with
    | some p =>
      obtain ⟨p1, p2⟩ := p
      rw [hrec] at h
      simp only [Option.some.injEq, Prod.mk.injEq] at h
      obtain ⟨h1, h2⟩ := h
      obtain ⟨he, hn⟩ := ih p1 p2 hrec
      subst h1; subst h2
      exact ⟨by rw [he]; rfl, hn⟩
    | none =>
      rw [hrec] at h
      by_cases hac : a = c
      · rw [if_pos hac] at h
        cases h
        exact ⟨by rw [hac]; rfl, rsplitLast_eq_none c rest hrec⟩
      · rw [if_neg hac] at h
        cases h

lemma rsplitLast_isSome (c : Char) (l : List Char) (h : c ∈ l) :
    ∃ pre post, rsplitLast c l = Option.some (pre, post) := by
  cases hr : rsplitLast c l with
  | none => exact absurd h (rsplitLast_eq_none c l hr)
  | some p =>
    obtain ⟨p1, p2⟩ := p
    exact ⟨p1, p2, rfl⟩

lemma data_append (s t : String) : (s ++ t).data = s.data ++ t.data :=
  String.data_append s t

lemma startsWithChars_slash (l : List Char) (h : startsWithChars ['/'] l = true) :
    '/' ∈ l := by
  cases l with
  | nil => cases h
  | cons a as =>
    simp only [startsWithChars, Bool.and_eq_true, beq_iff_eq] at h
    exact h.1 ▸ List.mem_cons_self '/' as

lemma forcedAbsolute_has_slash (node_name : String) :
    '/' ∈ (forcedAbsolute node_name).data := by
  unfold forcedAbsolute
  by_cases h : pyStartsWith node_name "/" = true
  · rw [if_pos h]
    unfold pyStartsWith at h
    exact startsWithChars_slash _ (by simpa using h)
  · rw [if_neg h, data_append]
    exact List.mem_append_left _ (by simp [String.data])

/-- Full characterization of a successful `parse_node_name` call: the counter
advances by exactly one, the id is `"node_"` plus the new counter value, the
full name is the forced-absolute input, and the full name decomposes at the
*last* slash (`pre ++ "/" ++ basename` with no slash in the basename), with
`"/"` substituted when the namespace part is empty. -/
lemma parse_node_name_spec (node_name : String) (g : Nat) :
    ∃ r : NodeName, parse_node_name node_name g = Except.ok (r, g + 1) ∧
      r.full_name = forcedAbsolute node_name ∧
      r.id = "node_" ++ toString (g + 1) ∧
      ∃ ns0 : String,
        r.full_name = ns0 ++ "/" ++ r.name ∧
        '/' ∉ r.name.data ∧
        r.namespc = (if ns0 = "" then "/" else ns0) := by
  obtain ⟨pre, post, hsplit⟩ :=
    rsplitLast_isSome '/' (forcedAbsolute node_name).data (forcedAbsolute_has_slash node_name)
  obtain ⟨hdecomp, hnotin⟩ := rsplitLast_eq_some '/' _ pre post hsplit
  refine ⟨⟨String.mk post,
          if String.mk pre = "" then "/" else String.mk pre,
          forcedAbsolute node_name,
          "node_" ++ toString (g + 1)⟩, ?_, rfl, rfl, ?_⟩
  · simp only [parse_node_name]
    rw [hsplit]
    rfl
  · refine ⟨String.mk pre, ?_, hnotin, rfl⟩
    apply String.ext
    rw [data_append, data_append, hdecomp]
    simp [String.data]

/-- Numeric value of a decimal digit character. -/
def charVal (c : Char) : Nat := c.toNat - 48

/-- Value of a decimal digit string, most significant digit first. -/
def val10 (l : List Char) : Nat :=
  l.foldl (fun a c => 10 * a + charVal c) 0

lemma val10_foldl_eq (l : List Char) :
    ∀ a : Nat, l.foldl (fun a c => 10 * a + charVal c) a = a * 10 ^ l.length + val10 l := by
  induction l with
  | nil => intro a; simp [val10]
  | cons c t ih =>
    intro a
    have h1 := ih (10 * a + charVal c)
    have h2 := ih (10 * 0 + charVal c)
    simp only [List.foldl_cons, List.length_cons]
    rw [h1, show val10 (c :: t) = List.foldl (fun a c => 10 * a + charVal c)
      (10 * 0 + charVal c) t from rfl, h2]
    ring

lemma val10_append_singleton (xs : List Char) (d : Char) :
    val10 (xs ++ [d]) = 10 * val10 xs + charVal d := by
  unfold val10
  rw [List.foldl_append]
  simp

lemma toDigitsCore_append (fuel : Nat) :
    ∀ n ds, Nat.toDigitsCore 10 fuel n ds = Nat.toDigitsCore 10 fuel n [] ++ ds := by
  induction fuel with
  | zero => intro n ds; simp [Nat.toDigitsCore]
  | succ fuel ih =>
    intro n ds
    simp only [Nat.toDigitsCore]
    by_cases h : n / 10 = 0
    · simp [h]
    · rw [if_neg h, if_neg h, ih (n / 10) [Nat.digitChar (n % 10)],
        ih (n / 10) (Nat.digitChar (n % 10) :: ds), List.append_assoc]
      rfl

lemma charVal_digitChar (d : Nat) (h : d < 10) : charVal (Nat.digitChar d) = d := by
  interval_cases d <;> decide

lemma val10_toDigitsCore (fuel : Nat) :
    ∀ n, n < 10 ^ fuel → val10 (Nat.toDigitsCore 10 fuel n []) = n := by
  induction fuel with
  | zero =>
    intro n h
    interval_cases n
    decide
  | succ fuel ih =>
    intro n h
    simp only [Nat.toDigitsCore]
    by_cases h0 : n / 10 = 0
    · rw [if_pos h0]
      have hm : n % 10 < 10 := Nat.mod_lt _ (by norm_num)
      have : val10 [Nat.digitChar (n % 10)] = charVal (Nat.digitChar (n % 10)) := by
        simp [val10]
      rw [this, charVal_digitChar _ hm]
      omega
    · rw [if_neg h0, toDigitsCore_append, val10_append_singleton]
      have hdiv : n / 10 < 10 ^ fuel := by
        rw [Nat.div_lt_iff_lt_mul (by norm_num : 0 < 10)]
        calc n < 10 ^ (fuel + 1) := h
          _ = 10 ^ fuel * 10 := by ring
      rw [ih (n / 10) hdiv, charVal_digitChar _ (Nat.mod_lt _ (by norm_num))]
      omega

lemma val10_toDigits (n : Nat) : val10 (Nat.toDigits 10 n) = n := by
  have hn : n < 10 ^ (n + 1) :=
    lt_of_lt_of_le (Nat.lt_pow_self (by norm_num) n)
      (Nat.pow_le_pow_right (by norm_num) (Nat.le_succ n))
  exact val10_toDigitsCore (n + 1) n hn

lemma natRepr_inj {m n : Nat} (h : Nat.repr m = Nat.repr n) : m = n := by
  have hd : Nat.toDigits 10 m = Nat.toDigits 10 n := by
    have := congrArg String.data h
    simpa [Nat.repr] using this
  calc m = val10 (Nat.toDigits 10 m) := (val10_toDigits m).symm
    _ = val10 (Nat.toDigits 10 n) := by rw [hd]
    _ = n := val10_toDigits n

lemma node_id_ne (m n : Nat) (h : m ≠ n) :
    ("node_" ++ toString m : String) ≠ "node_" ++ toString n := by
  intro he
  apply h
  have hd := congrArg String.data he
  rw [data_append, data_append] at hd
  have ht : (toString m : String).data = (toString n : String).data :=
    List.append_cancel_left hd
  exact natRepr_inj (String.ext ht)

lemma lexLe_total : ∀ a b : List Char, lexLe a b = true ∨ lexLe b a = true := by
  intro a
  induction a with
  | nil => intro b; left; rfl
  | cons x xs ih =>
    intro b
    cases b with
    | nil => right; rfl
    | cons y ys =>
      by_cases hxy : x = y
      · subst hxy
        simp only [lexLe, if_pos rfl]
        exact ih ys
      · simp only [lexLe, if_neg hxy, if_neg (Ne.symm hxy)]
        rcases lt_trichotomy x y with h | h | h
        · left; exact decide_eq_true h
        · exact absurd h hxy
        · right; exact decide_eq_true h

lemma lexLe_trans : ∀ a b c : List Char,
    lexLe a b = true → lexLe b c = true → lexLe a c = true := by
  intro a
  induction a with
  | nil => intro b c _ _; rfl
  | cons x xs ih =>
    intro b c h1 h2
    cases b with
    | nil => cases h1
    | cons y ys =>
      cases c with
      | nil => cases h2
      | cons z zs =>
        by_cases hxy : x = y
        · subst hxy
          rw [lexLe, if_pos rfl] at h1
          by_cases hyz : x = z
          · subst hyz
            rw [lexLe, if_pos rfl] at h2 ⊢
            exact ih ys zs h1 h2
          · rw [lexLe, if_neg hyz] at h2 ⊢
            exact h2
        · rw [lexLe, if_neg hxy] at h1
          have hlt1 : x < y := of_decide_eq_true h1
          by_cases hyz : y = z
          · subst hyz
            rw [lexLe, if_neg hxy]
            exact decide_eq_true hlt1
          · rw [lexLe, if_neg hyz] at h2
            have hlt2 : y < z := of_decide_eq_true h2
            have hxz : x < z := lt_trans hlt1 hlt2
            rw [lexLe, if_neg (ne_of_lt hxz)]
            exact decide_eq_true hxz

lemma lexLe_antisymm : ∀ a b : List Char,
    lexLe a b = true → lexLe b a = true → a = b := by
  intro a
  induction a with
  | nil =>
    intro b _ h2
    cases b with
    | nil => rfl
    | cons y ys => cases h2
  | cons x xs ih =>
    intro b h1 h2
    cases b with
    | nil => cases h1
    | cons y ys =>
      by_cases hxy : x = y
      · subst hxy
        rw [lexLe, if_pos rfl] at h1 h2
        rw [ih ys h1 h2]
      · rw [lexLe, if_neg hxy] at h1
        rw [lexLe, if_neg (Ne.symm hxy)] at h2
        exact absurd (lt_trans (of_decide_eq_true h1) (of_decide_eq_true h2))
          (lt_irrefl x)

instance : IsTotal (String × PyValue) keyRel :=
  ⟨fun p q => lexLe_total p.1.data q.1.data⟩

instance : IsTrans (String × PyValue) keyRel :=
  ⟨fun p q r => lexLe_trans p.1.data q.1.data r.1.data⟩

lemma keyRel_antisymm_keys {p q : String × PyValue}
    (h1 : keyRel p q) (h2 : keyRel q p) : p.1 = q.1 :=
  String.ext (lexLe_antisymm p.1.data q.1.data h1 h2)

lemma sorted_iteritems_perm (l : List (String × PyValue)) :
    List.Perm (sorted_iteritems l) l :=
  List.perm_insertionSort keyRel l

lemma sorted_iteritems_sorted (l : List (String × PyValue)) :
    List.Sorted keyRel (sorted_iteritems l) :=
  List.sorted_insertionSort keyRel l

/-- Sorting by key is insensitive to the insertion order of a mapping with
distinct keys: permuted input, identical output. -/
lemma sorted_iteritems_eq_of_perm (l₁ l₂ : List (String × PyValue))
    (hp : List.Perm l₁ l₂) (hn : (l₁.map Prod.fst).Nodup) :
    sorted_iteritems l₁ = sorted_iteritems l₂ := by
  haveI : IsAntisymm (String × PyValue) (fun p q => keyRel p q ∧ p.1 ≠ q.1) :=
    ⟨fun p q h h' => absurd (keyRel_antisymm_keys h.1 h'.1) h.2⟩
  have hn₂ : (l₂.map Prod.fst).Nodup := (hp.map Prod.fst).nodup hn
  have hnS₁ : ((sorted_iteritems l₁).map Prod.fst).Nodup :=
    (((sorted_iteritems_perm l₁).map Prod.fst).symm).nodup hn
  have hnS₂ : ((sorted_iteritems l₂).map Prod.fst).Nodup :=
    (((sorted_iteritems_perm l₂).map Prod.fst).symm).nodup hn₂
  have hs₁ : List.Pairwise (fun p q : String × PyValue => keyRel p q ∧ p.1 ≠ q.1)
      (sorted_iteritems l₁) :=
    ((sorted_iteritems_sorted l₁).and ((List.pairwise_map).mp hnS₁))
  have hs₂ : List.Pairwise (fun p q : String × PyValue => keyRel p q ∧ p.1 ≠ q.1)
      (sorted_iteritems l₂) :=
    ((sorted_iteritems_sorted l₂).and ((List.pairwise_map).mp hnS₂))
  have hperm : List.Perm (sorted_iteritems l₁) (sorted_iteritems l₂) :=
    ((sorted_iteritems_perm l₁).trans hp).trans (sorted_iteritems_perm l₂).symm
  exact List.eq_of_perm_of_sorted hperm hs₁ hs₂

/-- The full attribute-list renderer is insensitive to insertion order. -/
lemma attr_list_eq_of_perm (l₁ l₂ : List (String × PyValue))
    (hp : List.Perm l₁ l₂) (hn : (l₁.map Prod.fst).Nodup) :
    DotWriter.attr_list l₁ = DotWriter.attr_list l₂ := by
  have he : l₁.isEmpty = l₂.isEmpty := by
    have hlen := hp.length_eq
    cases l₁ <;> cases l₂ <;> simp_all
  simp only [DotWriter.attr_list, he, sorted_iteritems_eq_of_perm l₁ l₂ hp hn]

/-- Character-wise description of the four successive replacements of
`DotWriter.escape`: the four special characters map to their two-character
escape sequence and every other character is untouched. -/
def escChar (c : Char) : List Char :=
  if c = '\\' then ['\\', '\\']
  else if c = '\n' then ['\\', 'n']
  else if c = '\t' then ['\\', 't']
  else if c = '\x22' then ['\\', '\x22']
  else [c]

lemma replaceChar_append (x y : List Char) (c : Char) (r : List Char) :
    replaceChar (x ++ y) c r = replaceChar x c r ++ replaceChar y c r := by
  simp [replaceChar, List.flatMap_append]

lemma fourPass_eq_flatMap : ∀ l : List Char,
    replaceChar (replaceChar (replaceChar
        (replaceChar l '\\' ['\\', '\\']) '\n' ['\\', 'n']) '\t' ['\\', 't']) '\x22' ['\\', '\x22']
      = l.flatMap escChar := by
  intro l
  induction l with
  | nil => rfl
  | cons a t ih =>
    rw [show (a :: t) = [a] ++ t from rfl, replaceChar_append, replaceChar_append,
      replaceChar_append, replaceChar_append, List.flatMap_append, ih]
    congr 1
    by_cases h1 : a = '\\'
    · subst h1; decide
    · by_cases h2 : a = '\n'
      · subst h2; decide
      · by_cases h3 : a = '\t'
        · subst h3; decide
        · by_cases h4 : a = '\x22'
          · subst h4; decide
          · simp [replaceChar, escChar, h1, h2, h3, h4]

lemma escape_eq_flatMap (s : String) :
    DotWriter.escape s = "\"" ++ String.mk (s.data.flatMap escChar) ++ "\"" := by
  simp only [DotWriter.escape]
  rw [fourPass_eq_flatMap]

/-- The entries of a mapping whose value is not `None`, in order. -/
def removeNone (l : List (String × PyValue)) : List (String × PyValue) :=
  l.filter fun p => !decide (p.2 = PyValue.none)

lemma attrListLoop_removeNone : ∀ (l : List (String × PyValue)) (first : Bool),
    attrListLoop (removeNone l) first = attrListLoop l first := by
  intro l
  induction l with
  | nil => intro first; rfl
  | cons p t ih =>
    intro first
    obtain ⟨name, value⟩ := p
    by_cases h : value = PyValue.none
    · subst h
      simp only [removeNone, List.filter_cons] at *
      simp only [attrListLoop, if_pos rfl]
      simpa using ih first
    · simp only [removeNone, List.filter_cons] at *
      simp only [decide_not, h, decide_False, Bool.not_false, if_true, attrListLoop,
        if_neg h]
      simp only [if_false]
      rw [ih false]

lemma attrListLoop_all_none : ∀ (l : List (String × PyValue)) (first : Bool),
    (∀ p ∈ l, p.2 = PyValue.none) → attrListLoop l first = Except.ok "" := by
  intro l
  induction l with
  | nil => intro first _; rfl
  | cons p t ih =>
    intro first h
    obtain ⟨name, value⟩ := p
    have hv : value = PyValue.none := h (name, value) (List.mem_cons_self _ _)
    subst hv
    simp only [attrListLoop, if_pos rfl]
    exact ih first fun q hq => h q (List.mem_cons_of_mem _ hq)

lemma attr_list_all_none (l : List (String × PyValue)) (hne : l ≠ [])
    (h : ∀ p ∈ l, p.2 = PyValue.none) : DotWriter.attr_list l = Except.ok " []" := by
  have hne' : l.isEmpty = false := by cases l with
    | nil => exact absurd rfl hne
    | cons a t => rfl
  have hall : ∀ p ∈ sorted_iteritems l, p.2 = PyValue.none := fun p hp =>
    h p ((sorted_iteritems_perm l).mem_iff.mp hp)
  simp only [DotWriter.attr_list, hne', Bool.false_eq_true, if_false,
    attrListLoop_all_none (sorted_iteritems l) true hall]
  rfl

lemma ratFloor_eq_intFloor (q : ℚ) : Rat.floor q = ⌊q⌋ := rfl

lemma float2int_of_le_zero (f : ℚ) (h : f ≤ 0) : float2int f = 0 := by
  unfold float2int
  rw [if_pos h]

lemma float2int_of_one_le (f : ℚ) (h : 1 ≤ f) : float2int f = 255 := by
  unfold float2int
  rw [if_neg (by linarith), if_pos h]

lemma float2int_mid (f : ℚ) (h0 : 0 < f) (h1 : f < 1) :
    float2int f = pyInt (255 * f + 1/2) := by
  unfold float2int
  rw [if_neg (not_le.mpr h0), if_neg (not_le.mpr h1)]

lemma float2int_range (f : ℚ) : 0 ≤ float2int f ∧ float2int f ≤ 255 := by
  by_cases h0 : f ≤ 0
  · rw [float2int_of_le_zero f h0]; omega
  · by_cases h1 : 1 ≤ f
    · rw [float2int_of_one_le f h1]; omega
    · push_neg at h0 h1
      rw [float2int_mid f h0 h1]
      have hpos : ¬(255 * f + 1/2) < 0 := by linarith
      unfold pyInt
      rw [if_neg hpos, ratFloor_eq_intFloor]
      constructor
      · exact Int.le_floor.mpr (by push_cast; linarith)
      · have : ⌊255 * f + 1/2⌋ < 256 := Int.floor_lt.mpr (by push_cast; linarith)
        omega

lemma float2int_half : float2int (1/2) = 128 := by
  rw [float2int_mid (1/2) (by norm_num) (by norm_num)]
  unfold pyInt
  rw [if_neg (by norm_num), ratFloor_eq_intFloor]
  norm_num

/-- Claim C1, counterexample.  The claim says that a mapping whose values are
all null produces no bracketed attribute list at all; but `attr_list` only
returns early on an *empty* mapping (`if not attrs: return`), so the non-empty
all-`None` mapping `dict(color=None)` emits the empty bracket pair `" []"`,
not nothing. -/
theorem attr_list_all_none_emits_brackets :
    DotWriter.attr_list [("color", PyValue.none)] = Except.ok " []" ∧
      DotWriter.attr_list [("color", PyValue.none)] ≠ Except.ok "" := by
  constructor
  · decide
  · decide

/-- Claim C1, amended.  Entries whose value is `None` are skipped entirely
from the rendered attribute list (the loop output equals the output on the
mapping with the `None` entries removed); when the mapping is empty no
bracketed list is emitted at all; but when the mapping is non-empty and every
value is `None`, an empty bracket pair `" []"` is emitted. -/
theorem attr_list_skips_none_entries :
    (∀ (l : List (String × PyValue)) (first : Bool),
      attrListLoop l first = attrListLoop (removeNone l) first) ∧
    DotWriter.attr_list [] = Except.ok "" ∧
    (∀ l : List (String × PyValue), l ≠ [] → (∀ p ∈ l, p.2 = PyValue.none) →
      DotWriter.attr_list l = Except.ok " []") :=
  ⟨fun l first => (attrListLoop_removeNone l first).symm, rfl, attr_list_all_none⟩

/-- Witness for the amended claim C1 at a concrete input. -/
theorem attr_list_skips_none_entries_witness :
    DotWriter.attr_list [("x", PyValue.none), ("y", PyValue.none)] = Except.ok " []" :=
  attr_list_skips_none_entries.2.2 [("x", PyValue.none), ("y", PyValue.none)]
    (by decide) (by decide)

/-- Claim C2: the call sequence `begin_graph()`, `node("n1", label="hello
world", color=None)`, `end_graph()` writes exactly
`digraph {\n\tn1 [label="hello world"];\n}\n` to the sink: tab-indented
statement, `;\n` terminator, quoted label, the null `color` attribute absent.
The sink receives the concatenation of the emitted strings in call order. -/
theorem dot_writer_end_to_end :
    (do
      let a ← DotWriter.begin_graph []
      let b ← DotWriter.node (PyValue.str "n1")
        [("label", PyValue.str "hello world"), ("color", PyValue.none)]
      Except.ok (a ++ b ++ DotWriter.end_graph))
    = Except.ok "digraph \x7b\n\tn1 [label=\"hello world\"];\n\x7d\n" := by decide

/-- Claim C3: an integer or float value renders as its plain decimal string,
unquoted; a string that is alphanumeric-only and does not start with `"0x"`
renders unquoted as-is; any other string is escaped — replacing, in this
order, backslash, newline, tab and double quote by their backslash escapes,
altering no other character (the `escChar` characterization) — and wrapped in
double quotes. -/
theorem dot_id_formatting :
    (∀ n : Int, DotWriter.id (PyValue.int n) = Except.ok (toString n)) ∧
    DotWriter.id (PyValue.int 42) = Except.ok "42" ∧
    DotWriter.id (PyValue.int (-7)) = Except.ok "-7" ∧
    (∀ dec : String, DotWriter.id (PyValue.float dec) = Except.ok dec) ∧
    (∀ s : String, pyIsAlnum s = true → pyStartsWith s "0x" = false →
      DotWriter.id (PyValue.str s) = Except.ok s) ∧
    (∀ s : String, ¬(pyIsAlnum s = true ∧ pyStartsWith s "0x" = false) →
      DotWriter.id (PyValue.str s) = Except.ok (DotWriter.escape s)) ∧
    (∀ s : String,
      DotWriter.escape s = "\"" ++ String.mk (s.data.flatMap escChar) ++ "\"") := by
  refine ⟨fun n => rfl, by decide, by decide, fun dec => rfl, ?_, ?_, escape_eq_flatMap⟩
  · intro s h1 h2
    simp [DotWriter.id, h1, h2]
  · intro s h
    have hcond : (pyIsAlnum s && !pyStartsWith s "0x") = false := by
      cases ha : pyIsAlnum s <;> cases hb : pyStartsWith s "0x" <;> simp_all
    simp [DotWriter.id, hcond]

/-- Witness for claim C3 at concrete inputs: an alphanumeric string passes
through unquoted, a string with a space is escaped and quoted, and a string
starting with `0x` is escaped and quoted even though it is alphanumeric. -/
theorem dot_id_formatting_witness :
    DotWriter.id (PyValue.str "abc123") = Except.ok "abc123" ∧
    DotWriter.id (PyValue.str "a b") = Except.ok (DotWriter.escape "a b") ∧
    DotWriter.id (PyValue.str "0x1f") = Except.ok (DotWriter.escape "0x1f") :=
  ⟨dot_id_formatting.2.2.2.2.1 "abc123" (by decide) (by decide),
   dot_id_formatting.2.2.2.2.2.1 "a b" (by decide),
   dot_id_formatting.2.2.2.2.2.1 "0x1f" (by decide)⟩

/-- Claim C4: `color` clamps each component before scaling — a component at
most `0` maps to channel `0`, at least `1` maps to channel `255`, and
otherwise to the truncation of `255*f + 1/2` — every channel lands in
`[0, 255]`, and the three example triples render as claimed, `"#"` followed by
two lowercase hex digits per channel. -/
theorem dot_color_clamping :
    (∀ f : ℚ, f ≤ 0 → float2int f = 0) ∧
    (∀ f : ℚ, 1 ≤ f → float2int f = 255) ∧
    (∀ f : ℚ, 0 < f → f < 1 → float2int f = pyInt (255 * f + 1/2)) ∧
    (∀ f : ℚ, 0 ≤ float2int f ∧ float2int f ≤ 255) ∧
    DotWriter.color 0 0 0 = "#000000" ∧
    DotWriter.color 1 1 1 = "#ffffff" ∧
    DotWriter.color (-1) 2 (1/2) = "#00ff80" := by
  have h0 : float2int 0 = 0 := float2int_of_le_zero 0 le_rfl
  have h1 : float2int 1 = 255 := float2int_of_one_le 1 le_rfl
  have hm1 : float2int (-1) = 0 := float2int_of_le_zero (-1) (by norm_num)
  have h2 : float2int 2 = 255 := float2int_of_one_le 2 (by norm_num)
  refine ⟨float2int_of_le_zero, float2int_of_one_le, float2int_mid,
    float2int_range, ?_, ?_, ?_⟩
  · simp only [DotWriter.color, h0]; decide
  · simp only [DotWriter.color, h1]; decide
  · simp only [DotWriter.color, hm1, h2, float2int_half]; decide

/-- Witness for claim C4 at concrete components: one clamped low, one clamped
high, one in the open interval (`mkRat 1 2` is the rational one half). -/
theorem dot_color_clamping_witness :
    float2int (-1) = 0 ∧ float2int 2 = 255 ∧
      float2int (mkRat 1 2) = pyInt (255 * mkRat 1 2 + 1/2) :=
  ⟨dot_color_clamping.1 (-1) (by decide),
   dot_color_clamping.2.1 2 (by decide),
   dot_color_clamping.2.2.1 (mkRat 1 2) (by decide) (by decide)⟩

/-- Claim C5: `parse_node_name` forces a leading `'/'`, splits the result at
its last `'/'` into namespace and basename (the basename contains no slash),
substitutes `"/"` when the namespace part is empty; `"foo"` gives
namespace `"/"` and basename `"foo"`, `"/a/b"` gives `"/a"` and `"b"`, and
`"/a/b/c"` gives `"/a/b"` and `"c"`. -/
theorem parse_node_name_splitting :
    (∀ (name : String) (g : Nat), ∃ (r : NodeName) (g' : Nat),
      parse_node_name name g = Except.ok (r, g') ∧
      r.full_name = forcedAbsolute name ∧
      ∃ ns0 : String, r.full_name = ns0 ++ "/" ++ r.name ∧ '/' ∉ r.name.data ∧
        r.namespc = (if ns0 = "" then "/" else ns0)) ∧
    parse_node_name "foo" 0 = Except.ok (⟨"foo", "/", "/foo", "node_1"⟩, 1) ∧
    parse_node_name "/a/b" 0 = Except.ok (⟨"b", "/a", "/a/b", "node_1"⟩, 1) ∧
    parse_node_name "/a/b/c" 0 = Except.ok (⟨"c", "/a/b", "/a/b/c", "node_1"⟩, 1) := by
  refine ⟨?_, by decide, by decide, by decide⟩
  intro name g
  obtain ⟨r, hok, hfull, _, hsplit⟩ := parse_node_name_spec name g
  exact ⟨r, g + 1, hok, hfull, hsplit⟩

/-- Claim C6: the writer's attribute output is a function of the mapping, not
of its insertion order — for any two association lists that are permutations
of each other with distinct keys, `attr_list` produces identical text, because
the entries are emitted sorted by attribute-name lexical order. -/
theorem attr_list_insertion_order_independent :
    ∀ l₁ l₂ : List (String × PyValue), List.Perm l₁ l₂ → (l₁.map Prod.fst).Nodup →
      DotWriter.attr_list l₁ = DotWriter.attr_list l₂ ∧
      sorted_iteritems l₁ = sorted_iteritems l₂ ∧
      List.Sorted keyRel (sorted_iteritems l₁) :=
  fun l₁ l₂ hp hn =>
    ⟨attr_list_eq_of_perm l₁ l₂ hp hn, sorted_iteritems_eq_of_perm l₁ l₂ hp hn,
      sorted_iteritems_sorted l₁⟩

/-- Witness for claim C6: two insertion orders of the same two-entry mapping
render identically. -/
theorem attr_list_insertion_order_independent_witness :
    DotWriter.attr_list [("b", PyValue.int 1), ("a", PyValue.str "x")] =
      DotWriter.attr_list [("a", PyValue.str "x"), ("b", PyValue.int 1)] :=
  (attr_list_insertion_order_independent
    [("b", PyValue.int 1), ("a", PyValue.str "x")]
    [("a", PyValue.str "x"), ("b", PyValue.int 1)]
    (by decide) (by decide)).1

/-- Claim C7: formatting succeeds exactly on numbers (integers, booleans,
floats) and strings; a value of any other type (`None` included) makes
`DotWriter.id` fail with the unsupported-type error, and the error propagates
immediately through a statement emitter such as `node` with no recovery. -/
theorem dot_id_unsupported_type_error :
    (∀ v : PyValue,
      (∃ s, DotWriter.id v = Except.ok s) ↔ ¬(v = PyValue.none ∨ v = PyValue.other)) ∧
    DotWriter.id PyValue.other = Except.error PyError.typeError ∧
    DotWriter.id PyValue.none = Except.error PyError.typeError ∧
    DotWriter.node (PyValue.str "n") [("k", PyValue.other)] =
      Except.error PyError.typeError := by
  refine ⟨?_, rfl, rfl, by decide⟩
  intro v
  constructor
  · rintro ⟨s, hs⟩ (h | h) <;> subst h <;> cases hs
  · intro h
    cases v with
    | int n => exact ⟨toString n, rfl⟩
    | bool b => exact ⟨if b then "True" else "False", rfl⟩
    | float dec => exact ⟨dec, rfl⟩
    | str s =>
      by_cases hc : (pyIsAlnum s && !pyStartsWith s "0x") = true
      · exact ⟨s, by simp [DotWriter.id, hc]⟩
      · exact ⟨DotWriter.escape s, by simp [DotWriter.id, hc]⟩
    | none => exact absurd (Or.inl rfl) h
    | other => exact absurd (Or.inr rfl) h

/-- Claim C8: the identifier counter is threaded through every allocation,
strictly increasing and never reused: two successive `parse_node_name` calls
starting from any counter value advance it by one each, produce ids
`"node_" ++ (g+1)` and `"node_" ++ (g+2)`, and those ids are distinct. -/
theorem parse_node_name_fresh_ids :
    ∀ (g : Nat) (n₁ n₂ : String), ∃ r₁ r₂ : NodeName,
      parse_node_name n₁ g = Except.ok (r₁, g + 1) ∧
      parse_node_name n₂ (g + 1) = Except.ok (r₂, g + 2) ∧
      r₁.id = "node_" ++ toString (g + 1) ∧
      r₂.id = "node_" ++ toString (g + 2) ∧
      r₁.id ≠ r₂.id := by
  intro g n₁ n₂
  obtain ⟨r₁, hok₁, _, hid₁, _⟩ := parse_node_name_spec n₁ g
  obtain ⟨r₂, hok₂, _, hid₂, _⟩ := parse_node_name_spec n₂ (g + 1)
  refine ⟨r₁, r₂, hok₁, hok₂, hid₁, hid₂, ?_⟩
  rw [hid₁, hid₂]
  exact node_id_ne (g + 1) (g + 2) (by omega)

/-- Claim C9: the failure branch of `parse_node_name` (no `'/'` in the input
after absolute-prefixing) is unreachable — the forced prefix guarantees a
slash, so the function is total: every string input parses successfully. -/
theorem parse_node_name_total :
    ∀ (name : String) (g : Nat), ∃ (r : NodeName) (g' : Nat),
      parse_node_name name g = Except.ok (r, g') := by
  intro name g
  obtain ⟨r, hok, _⟩ := parse_node_name_spec name g
  exact ⟨r, g + 1, hok⟩

/-- Claim C10: a boolean passes the number check (`bool` is a subtype of `int`
in Python), rendering unquoted as `"True"`/`"False"` instead of raising; the
unsupported-type error arises exactly for values that are not booleans,
integers, floats or strings. -/
theorem dot_id_bool_is_number :
    DotWriter.id (PyValue.bool true) = Except.ok "True" ∧
    DotWriter.id (PyValue.bool false) = Except.ok "False" ∧
    (∀ b : Bool, ∃ s, DotWriter.id (PyValue.bool b) = Except.ok s) ∧
    (∀ v : PyValue,
      DotWriter.id v = Except.error PyError.typeError ↔
        (v = PyValue.none ∨ v = PyValue.other)) := by
  refine ⟨rfl, rfl, ?_, ?_⟩
  · intro b
    exact ⟨if b then "True" else "False", rfl⟩
  · intro v
    cases v with
    | str s =>
      simp only [DotWriter.id]
      split <;> simp
    | _ => simp [DotWriter.id]
